import Mathlib

/-!
Verification of the SELECT recursion chip
(`crates/recursion/core/src/chips/select.rs`): the data model, the
preprocessed- and main-trace generators, the row-count policy and the AIR
evaluator, embedded shallowly, together with theorems settling the spec's
claims about them.
-/

namespace Sp1Select

/-- Modelled from the spec: `SelectIo<T>` is a fixed 5-tuple
`{bit, in1, in2, out1, out2}` generic over `T` (its Rust declaration lives
outside the provided sources; the spec fixes the five fields and their
order). -/
structure SelectIo (T : Type) where
  bit : T
  in1 : T
  in2 : T
  out1 : T
  out2 : T
deriving DecidableEq

/-- Modelled from the spec: `Address` wraps a single field element used
purely as a symbolic memory-cell tag. -/
structure Address (T : Type) where
  address : T
deriving DecidableEq

/-- `SelectInstr`: one static occurrence of the SELECT instruction:
symbolic addresses plus the two bus-send multiplicities. -/
structure SelectInstr (F : Type) where
  addrs : SelectIo (Address F)
  mult1 : F
  mult2 : F
deriving DecidableEq

/-- `SelectCols` (main-trace row): exactly the event values. -/
structure SelectCols (F : Type) where
  vals : SelectIo F
deriving DecidableEq

/-- `SelectPreprocessedCols` (preprocessed-trace row). -/
structure SelectPreprocessedCols (F : Type) where
  is_real : F
  addrs : SelectIo (Address F)
  mult1 : F
  mult2 : F
deriving DecidableEq

/-- `SELECT_COLS = size_of::<SelectCols<u8>>()`: five scalar fields. -/
def SELECT_COLS : Nat := 5

/-- `SELECT_PREPROCESSED_COLS = size_of::<SelectPreprocessedCols<u8>>()`:
`is_real` + five addresses + two multiplicities = 8 scalar fields. -/
def SELECT_PREPROCESSED_COLS : Nat := 8

/-- Modelled from the spec: the program's instruction enum is heterogeneous,
of which SELECT is one case; all non-SELECT kinds are filtered out by the
preprocessed-trace generator, so they are collapsed into a single `other`
constructor here. -/
inductive Instruction (F : Type) where
  | select : SelectInstr F → Instruction F
  | other : Instruction F
deriving DecidableEq

/-- Modelled from the spec: a `RecursionProgram` exposes an ordered
instruction sequence and an optional fixed log2-size override per chip
(`fixed_log2_rows`, declared outside the provided sources). -/
structure RecursionProgram (F : Type) where
  instructions : List (Instruction F)
  fixed_log2_rows : Option Nat
deriving DecidableEq

/-- Modelled from the spec: an `ExecutionRecord` exposes the ordered list of
SELECT events plus the optional fixed log2-size override for this chip. -/
structure ExecutionRecord (F : Type) where
  select_events : List (SelectIo F)
  fixed_log2_rows : Option Nat
deriving DecidableEq

/-- `extract_select_instrs`: the pure projection keeping, in program order,
every SELECT instruction. -/
def extract_select_instrs {F : Type} (program : RecursionProgram F) :
    List (SelectInstr F) :=
  program.instructions.filterMap fun
    | .select i => some i
    | .other => none

/-- Modelled from the spec: `sp1_core_machine::utils::next_power_of_two`
(declared outside the provided sources). With an override present it
returns `2^override`; otherwise the smallest power of two ≥ the real-row
count, with a floor of 1 row. -/
def next_power_of_two (n : Nat) (fixed_log2_rows : Option Nat) : Nat :=
  match fixed_log2_rows with
  | some log2_rows => 2 ^ log2_rows
  | none => 2 ^ Nat.clog 2 n

/-- `SelectChip::preprocessed_num_rows`. -/
def preprocessed_num_rows {F : Type} (program : RecursionProgram F)
    (instrs_len : Nat) : Option Nat :=
  some (match program.fixed_log2_rows with
    | some log2_rows => 2 ^ log2_rows
    | none => next_power_of_two instrs_len none)

/-- `SelectChip::num_rows`. -/
def num_rows {F : Type} (input : ExecutionRecord F) : Option Nat :=
  some (next_power_of_two input.select_events.length input.fixed_log2_rows)

/-- A row-major matrix of field elements: a flat value buffer plus the
declared row width. -/
structure RowMajorMatrix (F : Type) where
  values : List F
  width : Nat
deriving DecidableEq

/-- Row `i` of a row-major matrix. -/
def RowMajorMatrix.row {F : Type} (m : RowMajorMatrix F) (i : Nat) : List F :=
  (m.values.drop (i * m.width)).take m.width

/-- The 8 scalars written for one real preprocessed row:
`{is_real: 1, addrs: instr.addrs, mult1: instr.mult1, mult2: instr.mult2}`. -/
def preprocessedRowOf {F : Type} [CommRing F] (instr : SelectInstr F) :
    List F :=
  [1, instr.addrs.bit.address, instr.addrs.in1.address,
    instr.addrs.in2.address, instr.addrs.out1.address,
    instr.addrs.out2.address, instr.mult1, instr.mult2]

/-- The 5 scalars written for one real main-trace row: the event verbatim. -/
def mainRowOf {F : Type} (e : SelectIo F) : List F :=
  [e.bit, e.in1, e.in2, e.out1, e.out2]

/-- `SelectChip::generate_preprocessed_trace`. The buffer is zero-allocated
at `padded_nb_rows * SELECT_PREPROCESSED_COLS` scalars and its prefix of
`populate_len = instrs.len() * SELECT_PREPROCESSED_COLS` scalars is
populated row by row; slicing `values[..populate_len]` panics (modelled as
`none`) when `populate_len` exceeds the buffer length. -/
def generate_preprocessed_trace {F : Type} [CommRing F]
    (program : RecursionProgram F) : Option (RowMajorMatrix F) :=
  let instrs := extract_select_instrs program
  let padded_nb_rows := (preprocessed_num_rows program instrs.length).getD 0
  let populate_len := instrs.length * SELECT_PREPROCESSED_COLS
  if populate_len ≤ padded_nb_rows * SELECT_PREPROCESSED_COLS then
    some { values := (instrs.map preprocessedRowOf).flatten ++
             List.replicate
               (padded_nb_rows * SELECT_PREPROCESSED_COLS - populate_len) 0,
           width := SELECT_PREPROCESSED_COLS }
  else none

/-- `SelectChip::generate_dependencies`: a no-op on the output record. -/
def generate_dependencies {F : Type} (_input : ExecutionRecord F)
    (output : ExecutionRecord F) : ExecutionRecord F :=
  output

/-- `SelectChip::generate_trace`. The second component is the `&mut` output
record after the call, which the function never touches; the trace buffer is
zero-allocated and its prefix populated with the events verbatim, panicking
(`none`) when the populated prefix exceeds the buffer. -/
def generate_trace {F : Type} [CommRing F] (input : ExecutionRecord F)
    (output : ExecutionRecord F) :
    Option (RowMajorMatrix F) × ExecutionRecord F :=
  let events := input.select_events
  let padded_nb_rows := (num_rows input).getD 0
  let populate_len := events.length * SELECT_COLS
  if populate_len ≤ padded_nb_rows * SELECT_COLS then
    (some { values := (events.map mainRowOf).flatten ++
              List.replicate (padded_nb_rows * SELECT_COLS - populate_len) 0,
            width := SELECT_COLS },
     output)
  else (none, output)

/-- `SelectChip::local_only`. -/
def local_only : Bool := true

/-- `SelectChip::included`. -/
def included {F : Type} (_record : ExecutionRecord F) : Bool := true

/-- One bus message: a receive (demand) or send (supply) of an
(address, value) pair at a given weight. -/
inductive BusMessage (F : Type) where
  | receive (addr val weight : F)
  | send (addr val weight : F)
deriving DecidableEq

/-- The weight of a bus message. -/
def BusMessage.weight {F : Type} : BusMessage F → F
  | .receive _ _ w => w
  | .send _ _ w => w

/-- The constraint-builder sink the evaluator writes into: accumulated bus
messages and accumulated `assert_eq` identities. -/
structure AirBuilder (F : Type) where
  messages : List (BusMessage F)
  asserts : List (F × F)
deriving DecidableEq

/-- `builder.receive_single(addr, val, mult)`. -/
def receive_single {F : Type} (b : AirBuilder F) (addr val mult : F) :
    AirBuilder F :=
  { b with messages := b.messages ++ [.receive addr val mult] }

/-- `builder.send_single(addr, val, mult)`. -/
def send_single {F : Type} (b : AirBuilder F) (addr val mult : F) :
    AirBuilder F :=
  { b with messages := b.messages ++ [.send addr val mult] }

/-- `builder.assert_eq(lhs, rhs)`. -/
def assert_eq {F : Type} (b : AirBuilder F) (lhs rhs : F) : AirBuilder F :=
  { b with asserts := b.asserts ++ [(lhs, rhs)] }

/-- `SelectChip::eval`, transcribed statement by statement: three receives,
two sends, then the two correctness identities. -/
def SelectChip.eval {F : Type} [CommRing F]
    (prep_local : SelectPreprocessedCols F) (lcl : SelectCols F)
    (builder : AirBuilder F) : AirBuilder F :=
  let builder := receive_single builder prep_local.addrs.bit.address
    lcl.vals.bit prep_local.is_real
  let builder := receive_single builder prep_local.addrs.in1.address
    lcl.vals.in1 prep_local.is_real
  let builder := receive_single builder prep_local.addrs.in2.address
    lcl.vals.in2 prep_local.is_real
  let builder := send_single builder prep_local.addrs.out1.address
    lcl.vals.out1 prep_local.mult1
  let builder := send_single builder prep_local.addrs.out2.address
    lcl.vals.out2 prep_local.mult2
  let builder := assert_eq builder lcl.vals.out1
    (lcl.vals.bit * lcl.vals.in2 + (1 - lcl.vals.bit) * lcl.vals.in1)
  let builder := assert_eq builder lcl.vals.out2
    (lcl.vals.bit * lcl.vals.in1 + (1 - lcl.vals.bit) * lcl.vals.in2)
  builder

/-- The builder before any constraint is emitted. -/
def emptyBuilder {F : Type} : AirBuilder F := ⟨[], []⟩

/-- The full output of one row evaluation, starting from an empty sink. -/
def evalBuilder {F : Type} [CommRing F] (prep : SelectPreprocessedCols F)
    (lcl : SelectCols F) : AirBuilder F :=
  SelectChip.eval prep lcl emptyBuilder

/-- All accumulated `assert_eq` identities hold. -/
def assertsHold {F : Type} (b : AirBuilder F) : Prop :=
  ∀ p ∈ b.asserts, p.1 = p.2

instance {F : Type} [DecidableEq F] (b : AirBuilder F) :
    Decidable (assertsHold b) :=
  inferInstanceAs (Decidable (∀ p ∈ b.asserts, p.1 = p.2))

/-! ### Helper lemmas -/

lemma evalBuilder_asserts_eq {F : Type} [CommRing F]
    (prep : SelectPreprocessedCols F) (cols : SelectCols F) :
    (evalBuilder prep cols).asserts =
      [(cols.vals.out1,
        cols.vals.bit * cols.vals.in2 + (1 - cols.vals.bit) * cols.vals.in1),
       (cols.vals.out2,
        cols.vals.bit * cols.vals.in1 + (1 - cols.vals.bit) * cols.vals.in2)] :=
  rfl

lemma evalBuilder_messages_eq {F : Type} [CommRing F]
    (prep : SelectPreprocessedCols F) (cols : SelectCols F) :
    (evalBuilder prep cols).messages =
      [.receive prep.addrs.bit.address cols.vals.bit prep.is_real,
       .receive prep.addrs.in1.address cols.vals.in1 prep.is_real,
       .receive prep.addrs.in2.address cols.vals.in2 prep.is_real,
       .send prep.addrs.out1.address cols.vals.out1 prep.mult1,
       .send prep.addrs.out2.address cols.vals.out2 prep.mult2] :=
  rfl

lemma assertsHold_evalBuilder_iff {F : Type} [CommRing F]
    (prep : SelectPreprocessedCols F) (cols : SelectCols F) :
    assertsHold (evalBuilder prep cols) ↔
      (cols.vals.out1 =
        cols.vals.bit * cols.vals.in2 + (1 - cols.vals.bit) * cols.vals.in1 ∧
       cols.vals.out2 =
        cols.vals.bit * cols.vals.in1 + (1 - cols.vals.bit) * cols.vals.in2) := by
  rw [assertsHold, evalBuilder_asserts_eq]
  simp

lemma flatten_length_const {α : Type} (w : Nat) (L : List (List α))
    (hw : ∀ r ∈ L, r.length = w) : L.flatten.length = L.length * w := by
  induction L with
  | nil => simp
  | cons hd tl ih =>
    simp only [List.flatten_cons, List.length_append, List.length_cons]
    rw [hw hd (List.mem_cons_self hd tl),
      ih fun r hr => hw r (List.mem_cons_of_mem hd hr)]
    ring

lemma row_flatten_of_lt {α : Type} (w : Nat) (L : List (List α))
    (tail : List α) (hw : ∀ r ∈ L, r.length = w) :
    ∀ (i : Nat) (r : List α), L[i]? = some r →
      ((L.flatten ++ tail).drop (i * w)).take w = r := by
  induction L with
  | nil => intro i r h; simp at h
  | cons hd tl ih =>
    intro i r h
    cases i with
    | zero =>
      simp only [List.getElem?_cons_zero, Option.some.injEq] at h
      subst h
      simp only [Nat.zero_mul, List.drop_zero, List.flatten_cons,
        List.append_assoc]
      exact List.take_left' (hw hd (List.mem_cons_self hd tl))
    | succ i =>
      simp only [List.getElem?_cons_succ] at h
      have hlen : hd.length = w := hw hd (List.mem_cons_self hd tl)
      have hmul : (i + 1) * w = hd.length + i * w := by rw [hlen]; ring
      rw [List.flatten_cons, List.append_assoc, hmul, List.drop_append]
      exact ih (fun s hs => hw s (List.mem_cons_of_mem hd hs)) i r h

lemma row_flatten_padding {α : Type} (w rows : Nat) (L : List (List α))
    (z : α) (hw : ∀ r ∈ L, r.length = w) (i : Nat) (hge : L.length ≤ i)
    (hlt : i < rows) :
    ((L.flatten ++ List.replicate ((rows - L.length) * w) z).drop
      (i * w)).take w = List.replicate w z := by
  have hflat : L.flatten.length = L.length * w := flatten_length_const w L hw
  have hiw : i * w = L.flatten.length + (i - L.length) * w := by
    have hi : L.length + (i - L.length) = i := Nat.add_sub_cancel' hge
    calc i * w = (L.length + (i - L.length)) * w := by rw [hi]
    _ = L.flatten.length + (i - L.length) * w := by rw [hflat]; ring
  rw [hiw, List.drop_append, List.drop_replicate, List.take_replicate]
  congr 1
  have hstep : (i - L.length) * w + w ≤ (rows - L.length) * w := by
    have h1 : i - L.length + 1 ≤ rows - L.length := by omega
    calc (i - L.length) * w + w = (i - L.length + 1) * w := by ring
    _ ≤ (rows - L.length) * w := Nat.mul_le_mul_right w h1
  omega

lemma padded_values_length {α : Type} (w rows : Nat) (L : List (List α))
    (z : α) (hw : ∀ r ∈ L, r.length = w) (hle : L.length ≤ rows) :
    (L.flatten ++ List.replicate ((rows - L.length) * w) z).length =
      rows * w := by
  rw [List.length_append, List.length_replicate, flatten_length_const w L hw,
    ← Nat.add_mul, Nat.add_sub_cancel' hle]

/-! ### Concrete instances used to witness the theorems -/

instance : Fact (Nat.Prime 11) := ⟨by norm_num⟩

/-- The all-zero preprocessed row. -/
def zeroPreprocessedRow (F : Type) [CommRing F] : SelectPreprocessedCols F :=
  ⟨0, ⟨⟨0⟩, ⟨0⟩, ⟨0⟩, ⟨0⟩, ⟨0⟩⟩, 0, 0⟩

/-- The all-zero main-trace row. -/
def zeroMainRow (F : Type) [CommRing F] : SelectCols F :=
  ⟨⟨0, 0, 0, 0, 0⟩⟩

/-- The spec's end-to-end example, instruction A:
addresses `(bit=0, out1=1, out2=2, in1=3, in2=4)`, `mult1 = mult2 = 1`. -/
def instrA : SelectInstr (ZMod 11) := ⟨⟨⟨0⟩, ⟨3⟩, ⟨4⟩, ⟨1⟩, ⟨2⟩⟩, 1, 1⟩

/-- The spec's end-to-end example, instruction B:
addresses `(bit=5, out1=6, out2=7, in1=8, in2=9)`, `mult1 = mult2 = 1`. -/
def instrB : SelectInstr (ZMod 11) := ⟨⟨⟨5⟩, ⟨8⟩, ⟨9⟩, ⟨6⟩, ⟨7⟩⟩, 1, 1⟩

/-- The spec's example event 0 (swap case):
`{bit:1, in1:3, in2:5, out1:5, out2:3}`. -/
def evA : SelectIo (ZMod 11) := ⟨1, 3, 5, 5, 3⟩

/-- The spec's example event 1 (identity case):
`{bit:0, in1:5, in2:3, out1:5, out2:3}`. -/
def evB : SelectIo (ZMod 11) := ⟨0, 5, 3, 5, 3⟩

/-- A program with the two example SELECT instructions, one interleaved
non-SELECT instruction, and a fixed log2-size override of 1. -/
def progAB : RecursionProgram (ZMod 11) :=
  ⟨[.select instrA, .other, .select instrB], some 1⟩

/-- The expected preprocessed trace of `progAB`: two real rows, 8 columns. -/
def preprocAB : RowMajorMatrix (ZMod 11) :=
  ⟨[1, 0, 3, 4, 1, 2, 1, 1, 1, 5, 8, 9, 6, 7, 1, 1], 8⟩

/-- A record with the two example events and a fixed log2-size override
of 1. -/
def recAB : ExecutionRecord (ZMod 11) := ⟨[evA, evB], some 1⟩

/-- The expected main trace of `recAB`: two real rows, 5 columns. -/
def mainAB : RowMajorMatrix (ZMod 11) :=
  ⟨[1, 3, 5, 5, 3, 0, 5, 3, 5, 3], 5⟩

/-- Two SELECT instructions but an override pinning the trace to
`2^0 = 1` row: fewer rows than real instructions. -/
def progTrunc : RecursionProgram (ZMod 11) :=
  ⟨[.select instrA, .select instrB], some 0⟩

/-- Two SELECT events but an override pinning the trace to one row. -/
def recTrunc : ExecutionRecord (ZMod 11) := ⟨[evA, evB], some 0⟩

/-- An empty execution record. -/
def emptyRecord : ExecutionRecord (ZMod 11) := ⟨[], none⟩

/-- A program with no instructions and an override of `2^3 = 8` rows. -/
def progW4 : RecursionProgram (ZMod 11) := ⟨[], some 3⟩

/-- A record with five events and an override of `2^3 = 8` rows. -/
def recW4 : ExecutionRecord (ZMod 11) := ⟨List.replicate 5 evA, some 3⟩

/-! ### The claims -/

/-- C1: for boolean `bit` and any field values, the evaluator's two
identities are satisfied exactly when `(out1, out2) = (in2, in1)` for
`bit = 1` and `(out1, out2) = (in1, in2)` for `bit = 0`; every other
assignment violates at least one identity. -/
theorem select_identities_characterize_selection {F : Type} [Field F]
    (prep : SelectPreprocessedCols F) (bit in1 in2 out1 out2 : F)
    (hbit : bit = 0 ∨ bit = 1) :
    assertsHold (evalBuilder prep ⟨⟨bit, in1, in2, out1, out2⟩⟩) ↔
      ((bit = 1 ∧ out1 = in2 ∧ out2 = in1) ∨
       (bit = 0 ∧ out1 = in1 ∧ out2 = in2)) := by
  rcases hbit with h | h <;> subst h <;> rw [assertsHold_evalBuilder_iff] <;>
    dsimp only
  · constructor
    · rintro ⟨h1, h2⟩
      exact Or.inr ⟨rfl, by rw [h1]; ring, by rw [h2]; ring⟩
    · rintro (⟨h01, -, -⟩ | ⟨-, h1, h2⟩)
      · exact absurd h01 zero_ne_one
      · exact ⟨by rw [h1]; ring, by rw [h2]; ring⟩
  · constructor
    · rintro ⟨h1, h2⟩
      exact Or.inl ⟨rfl, by rw [h1]; ring, by rw [h2]; ring⟩
    · rintro (⟨-, h1, h2⟩ | ⟨h10, -, -⟩)
      · exact ⟨by rw [h1]; ring, by rw [h2]; ring⟩
      · exact absurd h10 one_ne_zero

/-- Witness for C1 at `bit = 1, in1 = 3, in2 = 4, out1 = 4, out2 = 3`
over `ZMod 11`. -/
theorem select_identities_characterize_selection_witness :
    ((1 : ZMod 11) = 0 ∨ (1 : ZMod 11) = 1) ∧
    (assertsHold (evalBuilder (zeroPreprocessedRow (ZMod 11))
        ⟨⟨1, 3, 4, 4, 3⟩⟩) ↔
      (((1 : ZMod 11) = 1 ∧ (4 : ZMod 11) = 4 ∧ (3 : ZMod 11) = 3) ∨
       ((1 : ZMod 11) = 0 ∧ (4 : ZMod 11) = 3 ∧ (3 : ZMod 11) = 4))) :=
  ⟨Or.inr rfl,
    select_identities_characterize_selection (zeroPreprocessedRow (ZMod 11))
      1 3 4 4 3 (Or.inr rfl)⟩

/-- C2: on every row the evaluator asserts exactly the two field identities
`out1 = bit*in2 + (1-bit)*in1` and `out2 = bit*in1 + (1-bit)*in2` and no
other identity; in particular no booleanness constraint on `bit`, so a row
with a non-boolean `bit` can still satisfy every asserted identity. -/
theorem select_eval_asserts_exactly_two_identities :
    (∀ (F : Type) [Field F] (prep : SelectPreprocessedCols F)
        (cols : SelectCols F),
      (evalBuilder prep cols).asserts =
        [(cols.vals.out1,
          cols.vals.bit * cols.vals.in2 +
            (1 - cols.vals.bit) * cols.vals.in1),
         (cols.vals.out2,
          cols.vals.bit * cols.vals.in1 +
            (1 - cols.vals.bit) * cols.vals.in2)]) ∧
    (∃ cols2 : SelectCols (ZMod 11),
      cols2.vals.bit * (cols2.vals.bit - 1) ≠ 0 ∧
      ∀ prep : SelectPreprocessedCols (ZMod 11),
        assertsHold (evalBuilder prep cols2)) := by
  refine ⟨fun F _ prep cols => evalBuilder_asserts_eq prep cols,
    ⟨⟨2, 1, 0, 10, 2⟩⟩, by decide, fun prep => ?_⟩
  rw [assertsHold_evalBuilder_iff]
  exact ⟨by decide, by decide⟩

/-- C3: on every row the evaluator emits exactly five bus messages: three
receives for `bit`, `in1`, `in2` weighted by `is_real`, and two sends for
`out1`, `out2` weighted by `mult1` and `mult2`. -/
theorem select_eval_emits_exactly_five_messages {F : Type} [Field F]
    (prep : SelectPreprocessedCols F) (cols : SelectCols F) :
    (evalBuilder prep cols).messages =
      [.receive prep.addrs.bit.address cols.vals.bit prep.is_real,
       .receive prep.addrs.in1.address cols.vals.in1 prep.is_real,
       .receive prep.addrs.in2.address cols.vals.in2 prep.is_real,
       .send prep.addrs.out1.address cols.vals.out1 prep.mult1,
       .send prep.addrs.out2.address cols.vals.out2 prep.mult2] :=
  rfl

/-- C8: on the all-zero row of both traces, both evaluator identities are
satisfied and all five bus messages carry weight 0; the all-zero main row
serializes to the all-zero trace row. -/
theorem padding_row_satisfies_all_constraints (F : Type) [Field F] :
    assertsHold (evalBuilder (zeroPreprocessedRow F) (zeroMainRow F)) ∧
    (∀ msg ∈ (evalBuilder (zeroPreprocessedRow F) (zeroMainRow F)).messages,
      msg.weight = 0) ∧
    mainRowOf (zeroMainRow F).vals = List.replicate SELECT_COLS 0 := by
  refine ⟨?_, ?_, ?_⟩
  · rw [assertsHold_evalBuilder_iff]
    constructor <;> · simp [zeroMainRow]
  · intro msg hmsg
    rw [evalBuilder_messages_eq] at hmsg
    simp only [List.mem_cons, List.not_mem_nil, or_false] at hmsg
    rcases hmsg with h | h | h | h | h <;> subst h <;>
      simp [BusMessage.weight, zeroPreprocessedRow]
  · simp [mainRowOf, zeroMainRow, SELECT_COLS, List.replicate]

/-- C9: `generate_dependencies` is a no-op on the output record,
`local_only` returns `true`, and `generate_trace` leaves the `&mut` output
record untouched. -/
theorem select_chip_is_local_only (F : Type) [Field F] :
    (∀ input output : ExecutionRecord F,
      generate_dependencies input output = output) ∧
    local_only = true ∧
    (∀ input output : ExecutionRecord F,
      (generate_trace input output).2 = output) := by
  refine ⟨fun _ _ => rfl, rfl, fun input output => ?_⟩
  rw [generate_trace]
  split <;> rfl

/-- C10: any assignment satisfying both identities — with no booleanness
assumption on `bit` — has its outputs uniquely determined by
`(bit, in1, in2)` and preserves the operand sum `out1 + out2 = in1 + in2`. -/
theorem select_outputs_determined_and_sum_preserved {F : Type} [Field F]
    (prep prep2 : SelectPreprocessedCols F) (bit in1 in2 out1 out2 o1 o2 : F)
    (h : assertsHold (evalBuilder prep ⟨⟨bit, in1, in2, out1, out2⟩⟩))
    (h2 : assertsHold (evalBuilder prep2 ⟨⟨bit, in1, in2, o1, o2⟩⟩)) :
    out1 = o1 ∧ out2 = o2 ∧ out1 + out2 = in1 + in2 := by
  rw [assertsHold_evalBuilder_iff] at h h2
  dsimp only at h h2
  obtain ⟨ha, hb⟩ := h
  obtain ⟨hc, hd⟩ := h2
  refine ⟨?_, ?_, ?_⟩
  · rw [ha, hc]
  · rw [hb, hd]
  · rw [ha, hb]; ring

/-- Witness for C10 at the non-boolean `bit = 2`, `in1 = 1`, `in2 = 0`,
`out1 = o1 = 10`, `out2 = o2 = 2` over `ZMod 11`. -/
theorem select_outputs_determined_and_sum_preserved_witness :
    (10 : ZMod 11) = 10 ∧ (2 : ZMod 11) = 2 ∧
      (10 : ZMod 11) + 2 = 1 + 0 :=
  select_outputs_determined_and_sum_preserved
    (zeroPreprocessedRow (ZMod 11)) (zeroPreprocessedRow (ZMod 11))
    2 1 0 10 2 10 2 (by decide) (by decide)

/-- C4: both row-count queries return `2^override` when an override is
configured, and otherwise the smallest power of two ≥ the real-row count
with a floor of 1; the two functions agree on identical inputs. -/
theorem row_count_policy {F : Type} [Field F] (program : RecursionProgram F)
    (record : ExecutionRecord F) (n : Nat)
    (hlen : record.select_events.length = n)
    (hfix : program.fixed_log2_rows = record.fixed_log2_rows) :
    preprocessed_num_rows program n = num_rows record ∧
    (∀ l, program.fixed_log2_rows = some l →
      preprocessed_num_rows program n = some (2 ^ l) ∧
      num_rows record = some (2 ^ l)) ∧
    (program.fixed_log2_rows = none →
      ∃ m, preprocessed_num_rows program n = some m ∧
        num_rows record = some m ∧ n ≤ m ∧ 1 ≤ m ∧ (∃ k, m = 2 ^ k) ∧
        ∀ j, n ≤ 2 ^ j → m ≤ 2 ^ j) := by
  subst hlen
  have hmain : preprocessed_num_rows program record.select_events.length =
      num_rows record := by
    rw [preprocessed_num_rows, num_rows, ← hfix]
    cases program.fixed_log2_rows <;> rfl
  refine ⟨hmain, fun l hl => ?_, fun h0 => ?_⟩
  · constructor
    · simp [preprocessed_num_rows, hl]
    · rw [← hmain]
      simp [preprocessed_num_rows, hl]
  · refine ⟨2 ^ Nat.clog 2 record.select_events.length, ?_, ?_,
      Nat.le_pow_clog one_lt_two _, Nat.one_le_two_pow, ⟨_, rfl⟩, ?_⟩
    · simp [preprocessed_num_rows, next_power_of_two, h0]
    · rw [← hmain]
      simp [preprocessed_num_rows, next_power_of_two, h0]
    · intro j hj
      exact Nat.pow_le_pow_right (by norm_num)
        ((Nat.le_pow_iff_clog_le one_lt_two).1 hj)

/-- Witness for C4 on a program and record with five events and an
override of `2^3` rows. -/
theorem row_count_policy_witness :
    preprocessed_num_rows progW4 5 = num_rows recW4 ∧
    (∀ l, progW4.fixed_log2_rows = some l →
      preprocessed_num_rows progW4 5 = some (2 ^ l) ∧
      num_rows recW4 = some (2 ^ l)) ∧
    (progW4.fixed_log2_rows = none →
      ∃ m, preprocessed_num_rows progW4 5 = some m ∧
        num_rows recW4 = some m ∧ 5 ≤ m ∧ 1 ≤ m ∧ (∃ k, m = 2 ^ k) ∧
        ∀ j, 5 ≤ 2 ^ j → m ≤ 2 ^ j) :=
  row_count_policy progW4 recW4 5 rfl rfl

lemma generate_preprocessed_trace_none_iff {F : Type} [CommRing F]
    (program : RecursionProgram F) :
    generate_preprocessed_trace program = none ↔
      ∃ l, program.fixed_log2_rows = some l ∧
        2 ^ l < (extract_select_instrs program).length := by
  simp only [generate_preprocessed_trace, preprocessed_num_rows,
    next_power_of_two, Option.getD_some, SELECT_PREPROCESSED_COLS]
  cases h : program.fixed_log2_rows with
  | none =>
    rw [if_pos (Nat.mul_le_mul_right _ (Nat.le_pow_clog one_lt_two _))]
    simp
  | some l =>
    simp only [Option.some.injEq]
    split_ifs with hc
    · simp only [reduceCtorEq, false_iff, not_exists, not_and]
      intro l2 hl2
      cases hl2
      omega
    · simp only [true_iff]
      exact ⟨l, rfl, by omega⟩

lemma generate_trace_none_iff {F : Type} [CommRing F]
    (input output : ExecutionRecord F) :
    (generate_trace input output).1 = none ↔
      ∃ l, input.fixed_log2_rows = some l ∧
        2 ^ l < input.select_events.length := by
  simp only [generate_trace, num_rows, next_power_of_two, Option.getD_some,
    SELECT_COLS]
  cases h : input.fixed_log2_rows with
  | none =>
    rw [if_pos (Nat.mul_le_mul_right _ (Nat.le_pow_clog one_lt_two _))]
    simp
  | some l =>
    simp only [Option.some.injEq]
    split_ifs with hc
    · simp only [reduceCtorEq, false_iff, not_exists, not_and]
      intro l2 hl2
      cases hl2
      omega
    · simp only [true_iff]
      exact ⟨l, rfl, by omega⟩

/-- C5 counterexample: with a fixed override of `2^0 = 1` row and two real
SELECT instructions (or events), both generators fail (the Rust code
panics slicing `values[..populate_len]`) instead of returning a trace. -/
theorem generation_fails_on_small_override :
    generate_preprocessed_trace progTrunc = none ∧
    (generate_trace recTrunc emptyRecord).1 = none := by decide

/-- C5 amended: generation fails exactly when a configured override yields
fewer rows than the real-row count (a panic, not a silent truncation);
otherwise it always returns a trace, and an empty program or record yields
a 1-row all-zero trace. -/
theorem trace_generation_total_unless_override_too_small {F : Type}
    [Field F] (program : RecursionProgram F)
    (input output : ExecutionRecord F) :
    (generate_preprocessed_trace program = none ↔
      ∃ l, program.fixed_log2_rows = some l ∧
        2 ^ l < (extract_select_instrs program).length) ∧
    ((generate_trace input output).1 = none ↔
      ∃ l, input.fixed_log2_rows = some l ∧
        2 ^ l < input.select_events.length) ∧
    (program.instructions = [] → program.fixed_log2_rows = none →
      generate_preprocessed_trace program =
        some ⟨List.replicate SELECT_PREPROCESSED_COLS 0,
          SELECT_PREPROCESSED_COLS⟩) ∧
    (input.select_events = [] → input.fixed_log2_rows = none →
      (generate_trace input output).1 =
        some ⟨List.replicate SELECT_COLS 0, SELECT_COLS⟩) := by
  refine ⟨generate_preprocessed_trace_none_iff program,
    generate_trace_none_iff input output, fun h1 h2 => ?_, fun h1 h2 => ?_⟩
  · simp [generate_preprocessed_trace, preprocessed_num_rows,
      next_power_of_two, extract_select_instrs, h1, h2,
      SELECT_PREPROCESSED_COLS, List.replicate]
  · simp [generate_trace, num_rows, next_power_of_two, h1, h2, SELECT_COLS,
      List.replicate]

/-- C6: the preprocessed-trace generator writes, for the i-th extracted
SELECT instruction, row i as
`{is_real: 1, addrs: instr.addrs, mult1: instr.mult1, mult2: instr.mult2}`;
every row past the extracted count is all-zero, and the matrix is row-major
with width `SELECT_PREPROCESSED_COLS` and the row count given by
`preprocessed_num_rows`. -/
theorem preprocessed_trace_content {F : Type} [Field F]
    (program : RecursionProgram F) (m : RowMajorMatrix F)
    (hm : generate_preprocessed_trace program = some m) :
    ∃ rows,
      preprocessed_num_rows program (extract_select_instrs program).length =
        some rows ∧
      m.width = SELECT_PREPROCESSED_COLS ∧
      m.values.length = rows * SELECT_PREPROCESSED_COLS ∧
      (∀ i instr, (extract_select_instrs program)[i]? = some instr →
        m.row i = preprocessedRowOf instr) ∧
      (∀ i, (extract_select_instrs program).length ≤ i → i < rows →
        m.row i = List.replicate SELECT_PREPROCESSED_COLS 0) := by
  simp only [generate_preprocessed_trace, Option.getD_some] at hm
  set instrs := extract_select_instrs program with hinstrs
  set rows := match program.fixed_log2_rows with
    | some log2_rows => 2 ^ log2_rows
    | none => next_power_of_two instrs.length none with hrows
  rw [preprocessed_num_rows] at hm
  simp only [Option.getD_some] at hm
  split_ifs at hm with hc
  injection hm with hm2
  subst hm2
  have hle : instrs.length ≤ rows := by
    simp only [SELECT_PREPROCESSED_COLS] at hc
    omega
  have hw : ∀ r ∈ instrs.map preprocessedRowOf,
      r.length = SELECT_PREPROCESSED_COLS := by
    intro r hr
    rcases List.mem_map.1 hr with ⟨a, -, rfl⟩
    rfl
  have hsub : rows * SELECT_PREPROCESSED_COLS -
      instrs.length * SELECT_PREPROCESSED_COLS =
      (rows - (instrs.map preprocessedRowOf).length) *
        SELECT_PREPROCESSED_COLS := by
    rw [List.length_map, Nat.sub_mul]
  refine ⟨rows, rfl, rfl, ?_, ?_, ?_⟩
  · simp only [hsub]
    rw [padded_values_length _ _ _ _ hw (by rw [List.length_map]; exact hle)]
  · intro i instr hi
    rw [RowMajorMatrix.row]
    simp only [hsub]
    exact row_flatten_of_lt _ _ _ hw i _
      (by rw [List.getElem?_map, hi]; rfl)
  · intro i h1 h2
    rw [RowMajorMatrix.row]
    simp only [hsub]
    exact row_flatten_padding _ _ _ _ hw i
      (by rw [List.length_map]; exact h1) h2

/-- Witness for C6 on the spec's two-instruction example program (with an
interleaved non-SELECT instruction and a `2^1`-row override). -/
theorem preprocessed_trace_content_witness :
    ∃ rows,
      preprocessed_num_rows progAB (extract_select_instrs progAB).length =
        some rows ∧
      preprocAB.width = SELECT_PREPROCESSED_COLS ∧
      preprocAB.values.length = rows * SELECT_PREPROCESSED_COLS ∧
      (∀ i instr, (extract_select_instrs progAB)[i]? = some instr →
        preprocAB.row i = preprocessedRowOf instr) ∧
      (∀ i, (extract_select_instrs progAB).length ≤ i → i < rows →
        preprocAB.row i = List.replicate SELECT_PREPROCESSED_COLS 0) :=
  preprocessed_trace_content progAB preprocAB (by decide)

/-- C7: the main-trace generator writes, for the i-th SELECT event, row i
as the event's five field values verbatim; every row past the event count
is all-zero, and the matrix is row-major with width `SELECT_COLS` and the
row count given by `num_rows`. -/
theorem main_trace_content {F : Type} [Field F]
    (input output : ExecutionRecord F) (m : RowMajorMatrix F)
    (hm : (generate_trace input output).1 = some m) :
    ∃ rows, num_rows input = some rows ∧
      m.width = SELECT_COLS ∧
      m.values.length = rows * SELECT_COLS ∧
      (∀ i e, input.select_events[i]? = some e → m.row i = mainRowOf e) ∧
      (∀ i, input.select_events.length ≤ i → i < rows →
        m.row i = List.replicate SELECT_COLS 0) := by
  simp only [generate_trace, num_rows, Option.getD_some] at hm
  set rows := next_power_of_two input.select_events.length
    input.fixed_log2_rows with hrows
  split_ifs at hm with hc
  injection hm with hm2
  subst hm2
  have hle : input.select_events.length ≤ rows := by
    simp only [SELECT_COLS] at hc
    omega
  have hw : ∀ r ∈ input.select_events.map mainRowOf,
      r.length = SELECT_COLS := by
    intro r hr
    rcases List.mem_map.1 hr with ⟨a, -, rfl⟩
    rfl
  have hsub : rows * SELECT_COLS - input.select_events.length * SELECT_COLS =
      (rows - (input.select_events.map mainRowOf).length) * SELECT_COLS := by
    rw [List.length_map, Nat.sub_mul]
  refine ⟨rows, rfl, rfl, ?_, ?_, ?_⟩
  · simp only [hsub]
    rw [padded_values_length _ _ _ _ hw (by rw [List.length_map]; exact hle)]
  · intro i e hi
    rw [RowMajorMatrix.row]
    simp only [hsub]
    exact row_flatten_of_lt _ _ _ hw i _
      (by rw [List.getElem?_map, hi]; rfl)
  · intro i h1 h2
    rw [RowMajorMatrix.row]
    simp only [hsub]
    exact row_flatten_padding _ _ _ _ hw i
      (by rw [List.length_map]; exact h1) h2

/-- Witness for C7 on the spec's two-event example record (with a
`2^1`-row override). -/
theorem main_trace_content_witness :
    ∃ rows, num_rows recAB = some rows ∧
      mainAB.width = SELECT_COLS ∧
      mainAB.values.length = rows * SELECT_COLS ∧
      (∀ i e, recAB.select_events[i]? = some e →
        mainAB.row i = mainRowOf e) ∧
      (∀ i, recAB.select_events.length ≤ i → i < rows →
        mainAB.row i = List.replicate SELECT_COLS 0) :=
  main_trace_content recAB emptyRecord mainAB (by decide)

end Sp1Select
